import Mathlib

/-!
Shallow embedding of `p09_threadpool/src/lib.rs` (the worker-pool lifecycle and
job-dispatch core): the `ThreadPool` / `Worker` data model, `ThreadPool::new`,
`ThreadPool::execute`, the `Drop` implementation, and the worker loop, together
with spec-level definitions of the Pool / Job Queue contracts for refinement
claims.  Machine behaviour that may panic is modelled by an explicit `Outcome`
type; the mpsc channel (standard library, outside this repository) is modelled
at its interface boundary.
-/

namespace ThreadPoolModel

/-- The result of running Rust code that may panic: either a normal value or a
panic carrying the panic message.  In `p09_threadpool` every failure path is a
panic (`assert!` in `new`, `unwrap` in `execute` and in the `Drop` join loop);
no public operation returns a typed error value. -/
inductive Outcome (α : Type) where
  | ok : α → Outcome α
  | panicked : String → Outcome α
  deriving DecidableEq, Repr

/-- The spec's error taxonomy (§7): named failure conditions of the abstract
Pool / Job Queue interface. -/
inductive PoolError where
  | InvalidConfiguration : PoolError
  | PoolClosed : PoolError
  | QueueClosed : PoolError
  | WorkerFailure : PoolError
  deriving DecidableEq, Repr

/-- Modelled from the spec: the Job Queue conduit, realized in the source by
`std::sync::mpsc::channel` (standard library, outside this repository).
`buf` holds pending jobs in arrival order; `senderAlive` is false once the
producer handle has been dropped; `receiverAlive` is false once the consumer
side is gone. -/
structure Chan (α : Type) where
  buf : List α
  senderAlive : Bool
  receiverAlive : Bool
  deriving DecidableEq, Repr

/-- A freshly created channel: empty, both sides alive. -/
def Chan.fresh (α : Type) : Chan α :=
  { buf := [], senderAlive := true, receiverAlive := true }

/-- mpsc `Sender::send`: appends to the buffer when the receiving side is still
alive, otherwise returns `Err(SendError)`.  It never blocks (the channel is
unbounded). -/
def Chan.send (c : Chan α) (a : α) : Except Unit (Chan α) :=
  if c.receiverAlive then Except.ok { c with buf := c.buf ++ [a] }
  else Except.error ()

/-- The three ways mpsc `Receiver::recv` can behave for the caller: a delivered
value, the disconnected signal (all senders dropped, buffer empty), or blocking
because the buffer is empty while a sender is still alive. -/
inductive RecvResult (α : Type) where
  | got : α → RecvResult α
  | disconnected : RecvResult α
  | blocked : RecvResult α
  deriving DecidableEq, Repr

/-- mpsc `Receiver::recv` at the interface boundary: pops the oldest buffered
value; on an empty buffer it returns the disconnected signal immediately when
the sender is gone and blocks otherwise. -/
def Chan.recv (c : Chan α) : RecvResult α × Chan α :=
  match c.buf with
  | a :: rest => (RecvResult.got a, { c with buf := rest })
  | [] =>
    if c.senderAlive then (RecvResult.blocked, c)
    else (RecvResult.disconnected, c)

/-- Embeds `struct Worker`: a stable index `id` and
`handle : Option<JoinHandle<()>>` (`handleSome` records whether the join handle
is still present; `Drop` takes it before joining). -/
structure Worker where
  id : Nat
  handleSome : Bool
  deriving DecidableEq, Repr

/-- Embeds `struct ThreadPool`: the worker vector and
`sender : Option<mpsc::Sender<Job>>` (`senderSome` records whether the producer
handle is still present; `Drop` takes it to close the channel). -/
structure ThreadPool where
  workers : List Worker
  senderSome : Bool
  deriving DecidableEq, Repr

/-- The pool state `ThreadPool::new(size)` returns on its non-panicking path:
workers with ids `0, 1, …, size-1` in spawn order, each holding a join handle,
and the producer handle present. -/
def freshPool (size : Nat) : ThreadPool :=
  { workers := (List.range size).map (fun i => { id := i, handleSome := true }),
    senderSome := true }

/-- Embeds `ThreadPool::new`: `assert!(size > 0, "ThreadPool size must be
greater than 0")` panics on `size == 0` before the channel is created or any
worker thread is spawned; otherwise it creates the channel, spawns workers
`0..size` sharing the receiver, and returns the pool owning the sender. -/
def ThreadPool.new (size : Nat) : Outcome ThreadPool :=
  if size = 0 then Outcome.panicked "ThreadPool size must be greater than 0"
  else Outcome.ok (freshPool size)

/-- Embeds `ThreadPool::execute`:
`self.sender.as_ref().unwrap().send(job).unwrap()`.  The first `unwrap` panics
when the producer handle has been taken (teardown has begun); the second panics
when `send` fails (receiver side gone).  On both panic paths nothing is
enqueued and neither the pool nor the channel changes; `execute` takes `&self`,
so the pool component is returned unchanged on every path. -/
def ThreadPool.execute (p : ThreadPool) (c : Chan α) (job : α) :
    Outcome Unit × ThreadPool × Chan α :=
  if p.senderSome then
    match c.send job with
    | Except.ok c' => (Outcome.ok (), p, c')
    | Except.error _ =>
        (Outcome.panicked "called Result::unwrap on an Err value", p, c)
  else
    (Outcome.panicked "called Option::unwrap on a None value", p, c)

/-- Modelled from the spec: `Pool::new(size) -> Pool | InvalidConfiguration`
(§4.3, §6): `size` must be a positive integer; violating this fails with
`InvalidConfiguration`, and construction must not silently clamp to a
default. -/
def specNew (size : Nat) : Except PoolError ThreadPool :=
  if size = 0 then Except.error PoolError.InvalidConfiguration
  else Except.ok (freshPool size)

/-- Modelled from the spec: `Pool::submit(job) -> () | PoolClosed` (§4.3):
defined only while the Pool has not begun teardown; afterwards it fails with
`PoolClosed`.  In the source, teardown having begun is exactly
`sender == None`. -/
def specSubmit (p : ThreadPool) : Except PoolError Unit :=
  if p.senderSome then Except.ok () else Except.error PoolError.PoolClosed

/-- C1: once teardown has begun (the producer handle has been consumed, i.e.
`sender == None`), a subsequent `execute` call fails — the source panics at
`self.sender.as_ref().unwrap()`, which is the spec's `PoolClosed` condition —
and has no observable side effect: no job is enqueued on the channel and the
pool state is unchanged.  The spec-level `submit` agrees, failing with
`PoolClosed` exactly in this state. -/
theorem submit_after_teardown_fails_without_effect
    (p : ThreadPool) (c : Chan Nat) (j : Nat) (h : p.senderSome = false) :
    (p.execute c j).1 = Outcome.panicked "called Option::unwrap on a None value" ∧
    (p.execute c j).2.1 = p ∧
    (p.execute c j).2.2 = c ∧
    specSubmit p = Except.error PoolError.PoolClosed := by
  simp [ThreadPool.execute, specSubmit, h]

/-- Witness for C1 at a concrete torn-down pool. -/
theorem submit_after_teardown_fails_without_effect_witness :
    ((({ workers := [], senderSome := false } : ThreadPool).execute
        (Chan.fresh Nat) 7).1 =
      Outcome.panicked "called Option::unwrap on a None value") ∧
    (({ workers := [], senderSome := false } : ThreadPool).execute
        (Chan.fresh Nat) 7).2.1 = { workers := [], senderSome := false } ∧
    (({ workers := [], senderSome := false } : ThreadPool).execute
        (Chan.fresh Nat) 7).2.2 = Chan.fresh Nat ∧
    specSubmit { workers := [], senderSome := false } =
      Except.error PoolError.PoolClosed :=
  submit_after_teardown_fails_without_effect
    { workers := [], senderSome := false } (Chan.fresh Nat) 7 rfl

/-- C2: construction with `size = 0` (the only non-positive `usize`) fails —
the source's `assert!` panics, which is the spec's `InvalidConfiguration`
condition — before any worker is spawned, and construction never clamps: every
successful construction returns a pool with exactly `size` workers, ids
`0..size`.  The spec-level `new` fails with `InvalidConfiguration` on exactly
the same inputs. -/
theorem new_rejects_nonpositive_size :
    (∀ size : Nat,
      ThreadPool.new size =
        Outcome.panicked "ThreadPool size must be greater than 0" ↔ size = 0) ∧
    (∀ (size : Nat) (p : ThreadPool), ThreadPool.new size = Outcome.ok p →
      p.workers.length = size ∧ p.workers.map Worker.id = List.range size ∧
      0 < size) ∧
    (∀ size : Nat,
      specNew size = Except.error PoolError.InvalidConfiguration ↔ size = 0) := by
  refine ⟨fun size => ?_, fun size p h => ?_, fun size => ?_⟩
  · constructor
    · intro h
      by_contra hne
      simp [ThreadPool.new, hne] at h
    · intro h
      simp [ThreadPool.new, h]
  · by_cases hz : size = 0
    · simp [ThreadPool.new, hz] at h
    · simp only [ThreadPool.new, hz, if_false] at h
      cases h
      refine ⟨?_, ?_, Nat.pos_of_ne_zero hz⟩
      · simp [freshPool]
      · simp [freshPool, List.map_map, Function.comp_def]
  · constructor
    · intro h
      by_contra hne
      simp [specNew, hne] at h
    · intro h
      simp [specNew, h]

/-- Witness for C2: the failure branch at `size = 0` and the success branch at
`size = 3`. -/
theorem new_rejects_nonpositive_size_witness :
    ThreadPool.new 0 =
      Outcome.panicked "ThreadPool size must be greater than 0" ∧
    (freshPool 3).workers.length = 3 ∧
    specNew 0 = Except.error PoolError.InvalidConfiguration :=
  ⟨(new_rejects_nonpositive_size.1 0).mpr rfl,
   (new_rejects_nonpositive_size.2.1 3 (freshPool 3) rfl).1,
   (new_rejects_nonpositive_size.2.2 0).mpr rfl⟩

/-- Events emitted by the body of `impl Drop for ThreadPool`: closing the
channel (dropping the taken sender) and joining a worker by id. -/
inductive DropEvent where
  | closeChannel : DropEvent
  | joinWorker : Nat → DropEvent
  deriving DecidableEq, Repr

/-- Embeds `impl Drop for ThreadPool`: first `drop(self.sender.take())` — which
closes the channel exactly when the sender was still present — then, iterating
over the worker vector in order, `if let Some(handle) = worker.handle.take()`
followed by `handle.join()`.  Returns the emitted event list together with the
pool state after the drop body ran (sender absent, all handles taken). -/
def ThreadPool.dropRun (p : ThreadPool) : List DropEvent × ThreadPool :=
  ((if p.senderSome then [DropEvent.closeChannel] else []) ++
      (p.workers.filter (fun w => w.handleSome)).map
        (fun w => DropEvent.joinWorker w.id),
   { workers := p.workers.map (fun w => { w with handleSome := false }),
     senderSome := false })

/-- C4: on a freshly constructed pool the drop body first closes the channel
(consuming the producer handle) and then joins every worker, in ascending
worker-index order `0, 1, …, size-1` with none skipped; and the teardown runs
exactly once — running the drop body again on the resulting state closes
nothing and joins nobody. -/
theorem shutdown_closes_then_joins_all_ascending (size : Nat) :
    (freshPool size).dropRun.1 =
      DropEvent.closeChannel :: (List.range size).map DropEvent.joinWorker ∧
    List.Pairwise (· < ·) (List.range size) ∧
    ((freshPool size).dropRun.2).dropRun.1 = [] := by
  refine ⟨?_, List.pairwise_lt_range size, ?_⟩
  · simp [ThreadPool.dropRun, freshPool, List.filter_map, Function.comp_def,
      List.map_map]
  · simp [ThreadPool.dropRun, freshPool, List.filter_map, Function.comp_def,
      List.map_map]

/-- How a worker's thread ended: `clean` means the loop exited through the
recv-disconnected branch (`Err(_) => break`); `jobFault` means a job panicked
and unwound the worker thread. -/
inductive WorkerExit where
  | clean : WorkerExit
  | jobFault : WorkerExit
  deriving DecidableEq, Repr

/-- Embeds one `handle.join().unwrap()` from the drop body: `join` returns
`Err` exactly when the worker thread panicked, and the `unwrap` escalates that
to a panic of the thread running the teardown (the caller of shutdown). -/
def joinUnwrap : WorkerExit → Outcome Unit
  | WorkerExit.clean => Outcome.ok ()
  | WorkerExit.jobFault => Outcome.panicked "worker thread panicked"

/-- Embeds the join loop of the drop body over the exit statuses of the
workers, in vector order: each join result is unwrapped, so the first
`jobFault` encountered panics the shutdown. -/
def joinAll : List WorkerExit → Outcome Unit
  | [] => Outcome.ok ()
  | WorkerExit.clean :: rest => joinAll rest
  | WorkerExit.jobFault :: _ => Outcome.panicked "worker thread panicked"

/-- C6: if any worker's thread ended abnormally (a job fault), the shutdown
join loop surfaces that failure to the caller as a fatal error of the shutdown
operation itself (the `unwrap` on the join result panics); shutdown reports
success only when every worker exited cleanly, so an abnormal termination is
never silently swallowed. -/
theorem shutdown_surfaces_worker_failure (exits : List WorkerExit)
    (h : WorkerExit.jobFault ∈ exits) :
    joinAll exits = Outcome.panicked "worker thread panicked" ∧
    joinUnwrap WorkerExit.jobFault = Outcome.panicked "worker thread panicked" ∧
    ¬ joinAll exits = Outcome.ok () := by
  refine ⟨?_, rfl, ?_⟩
  · induction exits with
    | nil => cases h
    | cons e rest ih =>
      cases e with
      | clean =>
        have hrest : WorkerExit.jobFault ∈ rest := by
          cases h with
          | tail _ hm => exact hm
        simpa [joinAll] using ih hrest
      | jobFault => simp [joinAll]
  · intro hok
    induction exits with
    | nil => cases h
    | cons e rest ih =>
      cases e with
      | clean =>
        have hrest : WorkerExit.jobFault ∈ rest := by
          cases h with
          | tail _ hm => exact hm
        exact ih hrest (by simpa [joinAll] using hok)
      | jobFault => simp [joinAll] at hok

/-- Witness for C6 at a concrete exit-status vector with one faulted worker. -/
theorem shutdown_surfaces_worker_failure_witness :
    joinAll [WorkerExit.clean, WorkerExit.jobFault] =
      Outcome.panicked "worker thread panicked" :=
  (shutdown_surfaces_worker_failure [WorkerExit.clean, WorkerExit.jobFault]
    (by simp)).1

/-- The consumer-side result of the spec's `take()`: a job, the closed-signal,
or blocking (empty queue while the queue is still open). -/
inductive TakeResult (α : Type) where
  | job : α → TakeResult α
  | closedSignal : TakeResult α
  | wouldBlock : TakeResult α
  deriving DecidableEq, Repr

/-- Modelled from the spec: the Job Queue contract of §4.1.  In the source the
queue is `std::sync::mpsc` (standard library, outside this repository) plus the
pool's `Option<Sender>` guard; `closed` records that the producer handle has
been consumed, which is the mechanism that closes the queue. -/
structure JobQueue (α : Type) where
  buf : List α
  closed : Bool
  deriving DecidableEq, Repr

/-- Modelled from the spec: `push(job)` inserts the job for later consumption;
it is a total function (never blocks) and fails, with `QueueClosed`, exactly
when the queue has already been closed. -/
def JobQueue.push (q : JobQueue α) (a : α) : Except PoolError (JobQueue α) :=
  if q.closed then Except.error PoolError.QueueClosed
  else Except.ok { q with buf := q.buf ++ [a] }

/-- Modelled from the spec: `take()` returns the oldest job when one is
buffered; on an empty queue it returns the closed-signal immediately when the
queue is closed, and blocks otherwise. -/
def JobQueue.take (q : JobQueue α) : TakeResult α × JobQueue α :=
  match q.buf with
  | a :: rest => (TakeResult.job a, { q with buf := rest })
  | [] =>
    if q.closed then (TakeResult.closedSignal, q)
    else (TakeResult.wouldBlock, q)

/-- Modelled from the spec: `close()` marks the queue closed; it is
idempotent. -/
def JobQueue.close (q : JobQueue α) : JobQueue α :=
  { q with closed := true }

/-- C5: `push` never blocks (it is total, returning either success or
`QueueClosed`) and fails exactly when the queue has been closed; after
`close()` a `push` fails with `QueueClosed` and a `take()` on an empty queue
returns the closed-signal immediately rather than blocking; and the queue can
never be reopened: `push`, `take` and `close` all preserve closedness, and
`take` only reports `wouldBlock` on a queue that is still open. -/
theorem queue_close_semantics (q : JobQueue Nat) (a : Nat) :
    ((∃ q', q.push a = Except.ok q') ↔ q.closed = false) ∧
    (q.push a = Except.error PoolError.QueueClosed ↔ q.closed = true) ∧
    (q.close).push a = Except.error PoolError.QueueClosed ∧
    ((q.close).buf = [] → (q.close).take = (TakeResult.closedSignal, q.close)) ∧
    ((q.take).1 = TakeResult.wouldBlock → q.closed = false) ∧
    (∀ q', q.push a = Except.ok q' → q'.closed = q.closed) ∧
    (q.take).2.closed = q.closed ∧
    (q.close).closed = true ∧
    (q.close).close = q.close := by
  refine ⟨?_, ?_, ?_, ?_, ?_, ?_, ?_, rfl, rfl⟩
  · constructor
    · rintro ⟨q', hq'⟩
      by_contra hc
      have hc' : q.closed = true := by
        cases hcl : q.closed with
        | false => exact absurd hcl hc
        | true => rfl
      simp [JobQueue.push, hc'] at hq'
    · intro h
      exact ⟨{ q with buf := q.buf ++ [a] }, by simp [JobQueue.push, h]⟩
  · constructor
    · intro h
      by_contra hc
      have hc' : q.closed = false := by
        cases hcl : q.closed with
        | false => rfl
        | true => exact absurd hcl hc
      simp [JobQueue.push, hc'] at h
    · intro h
      simp [JobQueue.push, h]
  · simp [JobQueue.push, JobQueue.close]
  · intro hbuf
    simp only [JobQueue.close] at hbuf ⊢
    simp [JobQueue.take, hbuf]
  · intro h
    rcases hbuf : q.buf with _ | ⟨x, rest⟩
    · cases hcl : q.closed with
      | false => rfl
      | true => simp [JobQueue.take, hbuf, hcl] at h
    · simp [JobQueue.take, hbuf] at h
  · intro q' h
    cases hcl : q.closed with
    | false =>
      simp [JobQueue.push, hcl] at h
      simp [← h, hcl]
    | true => simp [JobQueue.push, hcl] at h
  · rcases hbuf : q.buf with _ | ⟨x, rest⟩
    · cases hcl : q.closed with
      | false => simp [JobQueue.take, hbuf, hcl]
      | true => simp [JobQueue.take, hbuf, hcl]
    · simp [JobQueue.take, hbuf]

/-- Witness for C5 at a concrete closed queue. -/
theorem queue_close_semantics_witness :
    (({ buf := [], closed := true } : JobQueue Nat).push 5 =
      Except.error PoolError.QueueClosed) ∧
    ({ buf := [], closed := true } : JobQueue Nat).close.take =
      (TakeResult.closedSignal,
       ({ buf := [], closed := true } : JobQueue Nat).close) :=
  ⟨(queue_close_semantics { buf := [], closed := true } 5).2.1.mpr rfl,
   (queue_close_semantics { buf := [], closed := true } 5).2.2.2.1 rfl⟩

/-- Events of one iteration of the worker loop: acquiring the consumer mutex,
the `recv` call, releasing the mutex (the guard being dropped), running a
dequeued job, and breaking out of the loop. -/
inductive WEvent where
  | lockAcquire : WEvent
  | recvCall : WEvent
  | lockRelease : WEvent
  | runJob : Nat → WEvent
  | exitLoop : WEvent
  deriving DecidableEq, Repr

/-- Embeds one iteration of the worker loop in `Worker::new`:
`let message = receiver.lock().unwrap().recv();` followed by a `match` on
`message`.  The `MutexGuard` produced by `lock().unwrap()` is a temporary of
the `let` statement, so it is dropped at the end of that statement — after
`recv` returns and before the `match` arms run.  `message` is the recv result:
`some j` stands for `Ok(job)` (the arm runs the job), `none` for `Err(_)`
(the arm breaks out of the loop). -/
def workerIterTrace (message : Option Nat) : List WEvent :=
  [WEvent.lockAcquire, WEvent.recvCall, WEvent.lockRelease] ++
    (match message with
     | some j => [WEvent.runJob j]
     | none => [WEvent.exitLoop])

/-- The sub-sequence of a trace's events that occur while the consumer lock is
held, scanning left to right: `lockAcquire` sets the held flag, `lockRelease`
clears it, and every other event is kept exactly when the flag is set as it
occurs. -/
def eventsWhileHeld : List WEvent → Bool → List WEvent
  | [], _ => []
  | WEvent.lockAcquire :: rest, _ => eventsWhileHeld rest true
  | WEvent.lockRelease :: rest, _ => eventsWhileHeld rest false
  | e :: rest, held => (if held then [e] else []) ++ eventsWhileHeld rest held

/-- C7: in every iteration of the worker loop — whether `recv` delivers a job
or the disconnected signal — the consumer mutex is held exactly around the
`recv` (take) step: the only event under the lock is the `recv` call, and in
particular no job ever executes while the lock is held, so one worker's
long-running job cannot block another worker's `take`. -/
theorem lock_covers_only_take_step (message : Option Nat) :
    eventsWhileHeld (workerIterTrace message) false = [WEvent.recvCall] ∧
    ∀ j : Nat,
      WEvent.runJob j ∉ eventsWhileHeld (workerIterTrace message) false := by
  cases message with
  | none => exact ⟨rfl, by intro j; simp [workerIterTrace, eventsWhileHeld]⟩
  | some j0 => exact ⟨rfl, by intro j; simp [workerIterTrace, eventsWhileHeld]⟩

/-- Runs a worker-loop trace through Rust's mutex-poisoning rule and returns
whether the consumer mutex ends up poisoned.  A mutex becomes poisoned exactly
when a panic unwinds while a guard is held; here `faulting = true` means the
dequeued job panics at its `runJob` event, which aborts the iteration there
with the mutex poisoned precisely when the lock is held at that point. -/
def poisonedAfter : List WEvent → Bool → Bool → Bool
  | [], _, _ => false
  | WEvent.lockAcquire :: rest, _, faulting => poisonedAfter rest true faulting
  | WEvent.lockRelease :: rest, _, faulting => poisonedAfter rest false faulting
  | WEvent.runJob _ :: rest, held, faulting =>
      if faulting then held else poisonedAfter rest held faulting
  | _ :: rest, held, faulting => poisonedAfter rest held faulting

/-- Embeds `receiver.lock().unwrap()` as seen by the next worker: `lock`
returns `Err(PoisonError)` when the mutex is poisoned — making the `unwrap`
panic — and succeeds otherwise. -/
def lockUnwrap (poisoned : Bool) : Outcome Unit :=
  if poisoned then Outcome.panicked "poisoned lock" else Outcome.ok ()

/-- C10: a faulting job can never poison the consumer mutex, because the guard
is a temporary dropped at the end of the `recv` statement, before the job runs:
for every recv result, running the iteration with a panicking job leaves the
mutex unpoisoned, and a subsequent `lock().unwrap()` by any other worker
succeeds. -/
theorem faulting_job_never_poisons_mutex (message : Option Nat) :
    poisonedAfter (workerIterTrace message) false true = false ∧
    lockUnwrap (poisonedAfter (workerIterTrace message) false true) =
      Outcome.ok () := by
  cases message with
  | none => exact ⟨rfl, rfl⟩
  | some j => exact ⟨rfl, rfl⟩

/-- C9: the public surface of the pool reports no failure as a typed error
value — each failure mode evaluates to a panic of the calling thread: `new` on
size 0 panics at its `assert!`; `execute` panics at `unwrap` both when the
producer handle is absent (teardown begun) and when the send itself fails
(receiver gone); and the shutdown join panics at `unwrap` when a worker thread
ended abnormally.  (In the embedding, `Outcome` has only the constructors
`ok` and `panicked`: there is no error-value constructor to return.) -/
theorem all_failures_are_panics :
    (∀ size : Nat, size = 0 →
      ThreadPool.new size =
        Outcome.panicked "ThreadPool size must be greater than 0") ∧
    (∀ (p : ThreadPool) (c : Chan Nat) (j : Nat), p.senderSome = false →
      (p.execute c j).1 =
        Outcome.panicked "called Option::unwrap on a None value") ∧
    (∀ (p : ThreadPool) (c : Chan Nat) (j : Nat),
      p.senderSome = true → c.receiverAlive = false →
      (p.execute c j).1 =
        Outcome.panicked "called Result::unwrap on an Err value") ∧
    joinUnwrap WorkerExit.jobFault = Outcome.panicked "worker thread panicked" := by
  refine ⟨fun size h => by simp [ThreadPool.new, h], ?_, ?_, rfl⟩
  · intro p c j h
    simp [ThreadPool.execute, h]
  · intro p c j hs hr
    simp [ThreadPool.execute, Chan.send, hs, hr]

/-- Witness for C9: each failure path evaluated at a concrete input. -/
theorem all_failures_are_panics_witness :
    ThreadPool.new 0 =
      Outcome.panicked "ThreadPool size must be greater than 0" ∧
    ((({ workers := [], senderSome := false } : ThreadPool).execute
        (Chan.fresh Nat) 3).1 =
      Outcome.panicked "called Option::unwrap on a None value") ∧
    ((({ workers := [], senderSome := true } : ThreadPool).execute
        ({ buf := [], senderAlive := true, receiverAlive := false } : Chan Nat)
        3).1 =
      Outcome.panicked "called Result::unwrap on an Err value") :=
  ⟨all_failures_are_panics.1 0 rfl,
   all_failures_are_panics.2.1 { workers := [], senderSome := false }
     (Chan.fresh Nat) 3 rfl,
   all_failures_are_panics.2.2.1 { workers := [], senderSome := true }
     { buf := [], senderAlive := true, receiverAlive := false } 3 rfl rfl⟩

/-- Submissions from two distinct submitting threads: thread A's jobs are
tagged `true`, thread B's jobs `false`.  `Interleaving a b l` holds when `l`
is an order-preserving merge of A's submission list `a` with B's submission
list `b`: each thread's `submit` calls occur in `l` in that thread's program
order, while the cross-thread interleaving is arbitrary. -/
inductive Interleaving : List Nat → List Nat → List (Bool × Nat) → Prop where
  | nil : Interleaving [] [] []
  | consA (x : Nat) (a b : List Nat) (l : List (Bool × Nat)) :
      Interleaving a b l → Interleaving (x :: a) b ((true, x) :: l)
  | consB (y : Nat) (a b : List Nat) (l : List (Bool × Nat)) :
      Interleaving a b l → Interleaving a (y :: b) ((false, y) :: l)

/-- Runs `ThreadPool::execute` once per element of `l`, in order, threading the
channel state through and stopping at the first panic. -/
def execAll (p : ThreadPool) (c : Chan (Bool × Nat)) :
    List (Bool × Nat) → Outcome (Chan (Bool × Nat))
  | [] => Outcome.ok c
  | a :: rest =>
    match p.execute c a with
    | (Outcome.ok _, _, c') => execAll p c' rest
    | (Outcome.panicked m, _, _) => Outcome.panicked m

/-- On a live pool and channel, executing a list of jobs succeeds and delivers
them to the channel buffer in call order. -/
theorem execAll_appends (n : Nat) (l : List (Bool × Nat)) :
    ∀ (buf : List (Bool × Nat)) (sa : Bool),
      execAll (freshPool n) { buf := buf, senderAlive := sa, receiverAlive := true } l =
        Outcome.ok { buf := buf ++ l, senderAlive := sa, receiverAlive := true } := by
  induction l with
  | nil => intro buf sa; simp [execAll]
  | cons a rest ih =>
    intro buf sa
    simp only [execAll, ThreadPool.execute, freshPool, Chan.send]
    simpa using ih (buf ++ [a]) sa

/-- An interleaving, filtered back to one thread's tag, is that thread's
submission list. -/
theorem interleaving_filter {a b : List Nat} {l : List (Bool × Nat)}
    (h : Interleaving a b l) :
    (l.filter (fun p => p.1)).map Prod.snd = a ∧
    (l.filter (fun p => !p.1)).map Prod.snd = b := by
  induction h with
  | nil => exact ⟨rfl, rfl⟩
  | consA x a b l _ ih => simpa [List.filter] using ih
  | consB y a b l _ ih => simpa [List.filter] using ih

/-- C8: for a single submitting thread, jobs reach the Job Queue in the order
of its `submit` calls: whenever the global arrival order `l` at the channel is
any order-preserving merge of thread A's submissions `a` and thread B's
submissions `b`, submitting all of `l` through `execute` on a live pool leaves
the channel holding `l`, whose restriction to thread A's jobs is exactly `a`
and to thread B's jobs exactly `b` (first-in, first-out per producer); across
the two threads the order is whatever the merge happened to be — no
cross-thread ordering is claimed. -/
theorem per_producer_fifo (n : Nat) (a b : List Nat) (l : List (Bool × Nat))
    (h : Interleaving a b l) :
    execAll (freshPool n) (Chan.fresh (Bool × Nat)) l =
      Outcome.ok { buf := l, senderAlive := true, receiverAlive := true } ∧
    (l.filter (fun p => p.1)).map Prod.snd = a ∧
    (l.filter (fun p => !p.1)).map Prod.snd = b := by
  refine ⟨?_, interleaving_filter h⟩
  simpa [Chan.fresh] using execAll_appends n l [] true

/-- Witness for C8: thread A submits `1, 2`, thread B submits `7`, and the
arrival order interleaves B between A's two submissions. -/
theorem per_producer_fifo_witness :
    execAll (freshPool 2) (Chan.fresh (Bool × Nat))
        [(true, 1), (false, 7), (true, 2)] =
      Outcome.ok { buf := [(true, 1), (false, 7), (true, 2)],
                   senderAlive := true, receiverAlive := true } ∧
    (([(true, 1), (false, 7), (true, 2)] : List (Bool × Nat)).filter
        (fun p => p.1)).map Prod.snd = [1, 2] ∧
    (([(true, 1), (false, 7), (true, 2)] : List (Bool × Nat)).filter
        (fun p => !p.1)).map Prod.snd = [7] :=
  per_producer_fifo 2 [1, 2] [7] [(true, 1), (false, 7), (true, 2)]
    (Interleaving.consA 1 [2] [7] [(false, 7), (true, 2)]
      (Interleaving.consB 7 [2] [] [(true, 2)]
        (Interleaving.consA 2 [] [] [] Interleaving.nil)))

/-- Global state of one pool run, for the exactly-once property.  `submitted`
counts `execute` calls so far (job ids are issued in that order); `buf` is the
channel buffer; `senderAlive` is the producer handle; `workers` holds one flag
per worker, `true` once that worker's loop has exited; `executedJobs` lists the
jobs run so far in execution order; `counter` is the shared counter each job
increments once when run. -/
structure SysState where
  submitted : Nat
  buf : List Nat
  senderAlive : Bool
  workers : List Bool
  executedJobs : List Nat
  counter : Nat
  deriving DecidableEq, Repr

/-- State right after `ThreadPool::new(size)`: nothing submitted, empty
channel, live sender, `size` running workers. -/
def initState (size : Nat) : SysState :=
  { submitted := 0, buf := [], senderAlive := true,
    workers := List.replicate size false, executedJobs := [], counter := 0 }

/-- Interleaving small-step semantics of a pool run, one step per atomic
channel interaction: `submit` is `execute` on the live sender (the job is
delivered to the channel exactly once, in send order); `closeSender` is the
drop body consuming the producer handle; `execOne` is a still-running worker's
`recv` obtaining the oldest buffered job and running it (incrementing the
shared counter); `terminate` is a still-running worker's `recv` returning the
disconnected signal (empty buffer, sender gone), ending its loop.  Each mpsc
message is delivered to exactly one receiver, which is what makes `execOne`
remove the job it delivers. -/
inductive SysStep : SysState → SysState → Prop where
  | submit (s : SysState) (h : s.senderAlive = true) :
      SysStep s { s with submitted := s.submitted + 1,
                         buf := s.buf ++ [s.submitted] }
  | closeSender (s : SysState) :
      SysStep s { s with senderAlive := false }
  | execOne (s : SysState) (w j : Nat) (rest : List Nat)
      (hw : s.workers[w]? = some false) (hb : s.buf = j :: rest) :
      SysStep s { s with buf := rest,
                         executedJobs := s.executedJobs ++ [j],
                         counter := s.counter + 1 }
  | terminate (s : SysState) (w : Nat)
      (hw : s.workers[w]? = some false)
      (hb : s.buf = []) (hs : s.senderAlive = false) :
      SysStep s { s with workers := s.workers.set w true }

/-- Run invariant: the executed jobs followed by the still-buffered jobs are
exactly the issued job ids in order; the shared counter counts executed jobs;
the worker vector keeps its size; and once any worker has terminated the
buffer is empty and the sender is gone (a worker only exits on the
disconnected signal, after which no submit step is enabled). -/
def SysInv (size : Nat) (s : SysState) : Prop :=
  s.executedJobs ++ s.buf = List.range s.submitted ∧
  s.counter = s.executedJobs.length ∧
  s.workers.length = size ∧
  (true ∈ s.workers → s.buf = [] ∧ s.senderAlive = false)

/-- One step preserves the run invariant. -/
theorem step_preserves_inv (size : Nat) {s t : SysState}
    (ih : SysInv size s) (hstep : SysStep s t) : SysInv size t := by
  obtain ⟨i1, i2, i3, i4⟩ := ih
  cases hstep with
  | submit hsend =>
    refine ⟨?_, i2, i3, ?_⟩
    · show s.executedJobs ++ (s.buf ++ [s.submitted]) =
        List.range (s.submitted + 1)
      rw [← List.append_assoc, i1, List.range_succ]
    · intro hm
      have h2 := (i4 hm).2
      simp [hsend] at h2
  | closeSender =>
    exact ⟨i1, i2, i3, fun hm => ⟨(i4 hm).1, rfl⟩⟩
  | execOne w j rest hw hb =>
    refine ⟨?_, ?_, i3, ?_⟩
    · show (s.executedJobs ++ [j]) ++ rest = List.range s.submitted
      rw [List.append_assoc, List.singleton_append, ← hb, i1]
    · show s.counter + 1 = (s.executedJobs ++ [j]).length
      simp [i2]
    · intro hm
      have h2 := (i4 hm).1
      rw [hb] at h2
      cases h2
  | terminate w hw hb hs =>
    refine ⟨i1, i2, ?_, fun _ => ⟨hb, hs⟩⟩
    show (s.workers.set w true).length = size
    rw [List.length_set, i3]

/-- Every state reachable from a fresh pool satisfies the run invariant. -/
theorem reachable_inv (size : Nat) (s : SysState)
    (h : Relation.ReflTransGen SysStep (initState size) s) : SysInv size s := by
  induction h with
  | refl =>
    refine ⟨by simp [initState], rfl, by simp [initState], ?_⟩
    intro hm
    simp [initState, List.mem_replicate] at hm
  | tail hsteps hstep ih =>
    exact step_preserves_inv size ih hstep

/-- C3: for every pool size > 0 and every number `k` of submitted
counter-incrementing jobs, in every execution in which shutdown has completed
(every worker's loop has exited), the shared counter equals `k` exactly, and
the multiset of executed jobs is exactly the `k` accepted ones: each accepted
job ran exactly once (none lost, none run twice, nothing else run) — in
particular also when `k` exceeds the number of workers. -/
theorem accepted_jobs_execute_exactly_once (size k : Nat) (s : SysState)
    (hsize : 0 < size)
    (hreach : Relation.ReflTransGen SysStep (initState size) s)
    (hsub : s.submitted = k)
    (hdone : ∀ b ∈ s.workers, b = true) :
    s.counter = k ∧ s.executedJobs = List.range k ∧
    (∀ j, j < k → s.executedJobs.count j = 1) ∧
    (∀ j, k ≤ j → s.executedJobs.count j = 0) := by
  obtain ⟨i1, i2, i3, i4⟩ := reachable_inv size s hreach
  have hne : s.workers ≠ [] := by
    intro h0
    rw [h0] at i3
    simp at i3
    omega
  have hmem : true ∈ s.workers := by
    obtain ⟨b, hb⟩ := List.exists_mem_of_ne_nil s.workers hne
    have hbt := hdone b hb
    rwa [hbt] at hb
  obtain ⟨hbuf, _⟩ := i4 hmem
  rw [hbuf, List.append_nil] at i1
  subst hsub
  refine ⟨?_, i1, ?_, ?_⟩
  · rw [i2, i1, List.length_range]
  · intro j hj
    rw [i1]
    exact List.count_eq_one_of_mem (List.nodup_range _) (List.mem_range.mpr hj)
  · intro j hj
    rw [i1]
    refine List.count_eq_zero_of_not_mem ?_
    simp only [List.mem_range]
    omega

/-- Witness for C3: one worker, two jobs — more jobs than workers — run to a
completed shutdown; the counter reads 2 and jobs 0 and 1 each ran once. -/
theorem accepted_jobs_execute_exactly_once_witness :
    (⟨2, [], false, [true], [0, 1], 2⟩ : SysState).counter = 2 ∧
    (⟨2, [], false, [true], [0, 1], 2⟩ : SysState).executedJobs =
      List.range 2 := by
  have h1 : SysStep (initState 1) ⟨1, [0], true, [false], [], 0⟩ :=
    SysStep.submit (initState 1) rfl
  have h2 : SysStep (⟨1, [0], true, [false], [], 0⟩ : SysState)
      ⟨2, [0, 1], true, [false], [], 0⟩ :=
    SysStep.submit _ rfl
  have h3 : SysStep (⟨2, [0, 1], true, [false], [], 0⟩ : SysState)
      ⟨2, [1], true, [false], [0], 1⟩ :=
    SysStep.execOne _ 0 0 [1] rfl rfl
  have h4 : SysStep (⟨2, [1], true, [false], [0], 1⟩ : SysState)
      ⟨2, [], true, [false], [0, 1], 2⟩ :=
    SysStep.execOne _ 0 1 [] rfl rfl
  have h5 : SysStep (⟨2, [], true, [false], [0, 1], 2⟩ : SysState)
      ⟨2, [], false, [false], [0, 1], 2⟩ :=
    SysStep.closeSender _
  have h6 : SysStep (⟨2, [], false, [false], [0, 1], 2⟩ : SysState)
      ⟨2, [], false, [true], [0, 1], 2⟩ :=
    SysStep.terminate _ 0 rfl rfl rfl
  have htrace : Relation.ReflTransGen SysStep (initState 1)
      ⟨2, [], false, [true], [0, 1], 2⟩ :=
    Relation.ReflTransGen.head h1 (Relation.ReflTransGen.head h2
      (Relation.ReflTransGen.head h3 (Relation.ReflTransGen.head h4
        (Relation.ReflTransGen.head h5 (Relation.ReflTransGen.head h6
          Relation.ReflTransGen.refl)))))
  have hmain := accepted_jobs_execute_exactly_once 1 2
    ⟨2, [], false, [true], [0, 1], 2⟩ (by decide) htrace rfl (by decide)
  exact ⟨hmain.1, hmain.2.1⟩

end ThreadPoolModel
